import Mathlib

/-!
Shallow embedding of the rake web-scraping interpreter core, translated from
src/rake/core.py (package variant) with src/rake.py (single-file variant) as a
cross-check.  Python runtime values are modelled by the Value inductive type;
Python dicts are association lists in insertion order; Python floats are exact
rationals (every float arising in the verified claims is a small decimal);
Python exceptions are the error side of Except.  Browser-side effects (the
Page Automation Provider of the spec) enter as explicit function parameters.
-/

namespace Rake

/-- Model of a Python runtime value as used by the scraper core. -/
inductive Value where
  | vnone
  | vbool (b : Bool)
  | vint (n : Int)
  | vfloat (q : Rat)
  | vstr (s : String)
  | vlist (l : List Value)
  | vdict (d : List (String × Value))

/-- A Python dict, in insertion order. -/
abbrev Dict := List (String × Value)

/-- Python truthiness: None, False, zero, empty string/list/dict are falsy. -/
def pyTruthy : Value → Bool
  | .vnone => false
  | .vbool b => b
  | .vint n => n != 0
  | .vfloat q => q != 0
  | .vstr s => !s.toList.isEmpty
  | .vlist l => !l.isEmpty
  | .vdict d => !d.isEmpty

/-! String primitives.  The Python string methods the core uses (strip, lower,
split, startswith, indexing, regex substitution of an escaped literal) are
modelled directly over character lists so that every verified example
evaluates inside the kernel.  Lowercasing is modelled on the ASCII range; all
strings in the verified claims are ASCII. -/

/-- Python str.strip with no argument: drop leading and trailing whitespace. -/
def pyStrip (s : String) : String :=
  String.mk (((s.toList.dropWhile Char.isWhitespace).reverse.dropWhile
    Char.isWhitespace).reverse)

/-- ASCII lowercasing of one character. -/
def lowerChar (c : Char) : Char :=
  if 'A' ≤ c ∧ c ≤ 'Z' then Char.ofNat (c.toNat + 32) else c

/-- Python str.lower, on the ASCII range. -/
def pyLower (s : String) : String :=
  String.mk (s.toList.map lowerChar)

/-- The prefix of a string before its first question mark: the first element
of the Python split on a question mark. -/
def beforeQuery (s : String) : String :=
  String.mk (s.toList.takeWhile (fun c => c != '?'))

/-- Whether the first character of a string is the given one (false on the
empty string, where Python indexing would raise instead; no claim exercises
an empty link string). -/
def strFirstIs (s : String) (c : Char) : Bool :=
  match s.toList with
  | [] => false
  | c2 :: _ => c2 == c

/-- All characters but the first. -/
def strRest (s : String) : String :=
  String.mk (s.toList.drop 1)

/-- Leftmost non-overlapping replacement of a nonempty literal pattern, the
behaviour of re.sub with an escaped pattern; the fuel argument is the length
of the subject and bounds the recursion structurally. -/
def replaceFuel (pat rep : List Char) : Nat → List Char → List Char
  | 0, s => s
  | fuel + 1, s =>
    match s with
    | [] => []
    | c :: rest =>
      if pat ≠ [] && pat.isPrefixOf s then rep ++ replaceFuel pat rep fuel (s.drop pat.length)
      else c :: replaceFuel pat rep fuel rest

/-- Replace every occurrence of a literal pattern in a string. -/
def strReplace (s pat rep : String) : String :=
  String.mk (replaceFuel pat.toList rep.toList s.toList.length s.toList)

/-- Repr of an integral or decimal float, as Python prints it (e.g. 7.0). -/
def floatRepr (q : Rat) : String :=
  if q.den = 1 then toString q.num ++ ".0" else toString q

mutual

/-- Python repr of a value (used by str for non-string values). -/
def pyRepr : Value → String
  | .vnone => "None"
  | .vbool true => "True"
  | .vbool false => "False"
  | .vint n => toString n
  | .vfloat q => floatRepr q
  | .vstr s => "\x27" ++ s ++ "\x27"
  | .vlist l => "[" ++ pyReprList l ++ "]"
  | .vdict d => "\x7b" ++ pyReprDict d ++ "\x7d"

/-- Comma-separated reprs of list elements. -/
def pyReprList : List Value → String
  | [] => ""
  | [v] => pyRepr v
  | v :: rest => pyRepr v ++ ", " ++ pyReprList rest

/-- Comma-separated reprs of dict items. -/
def pyReprDict : List (String × Value) → String
  | [] => ""
  | [(k, v)] => "\x27" ++ k ++ "\x27: " ++ pyRepr v
  | (k, v) :: rest => "\x27" ++ k ++ "\x27: " ++ pyRepr v ++ ", " ++ pyReprDict rest

end

/-- Python str() of a value: identity on strings, repr otherwise. -/
def pyStr : Value → String
  | .vstr s => s
  | v => pyRepr v

/-- Numeric view shared by Python cross-type comparisons (bool counts as int). -/
def pyNum? : Value → Option Rat
  | .vbool b => some (if b then 1 else 0)
  | .vint n => some (n : Rat)
  | .vfloat q => some q
  | _ => none

mutual

/-- Python equality between values: numeric kinds compare by value, strings
and containers structurally, different non-numeric kinds are unequal.
Dict equality is modelled structurally in insertion order; no verified claim
compares dicts. -/
def pyEq : Value → Value → Bool
  | .vnone, .vnone => true
  | .vstr a, .vstr b => a == b
  | .vlist a, .vlist b => pyEqList a b
  | .vdict a, .vdict b => pyEqDict a b
  | a, b =>
    match pyNum? a, pyNum? b with
    | some x, some y => x == y
    | _, _ => false

/-- Elementwise Python equality of lists. -/
def pyEqList : List Value → List Value → Bool
  | [], [] => true
  | a :: xs, b :: ys => pyEq a b && pyEqList xs ys
  | _, _ => false

/-- Itemwise structural equality of dicts. -/
def pyEqDict : List (String × Value) → List (String × Value) → Bool
  | [], [] => true
  | (k, v) :: xs, (k2, v2) :: ys => k == k2 && pyEq v v2 && pyEqDict xs ys
  | _, _ => false

end

mutual

/-- Python ordering comparison: numbers cross-compare by value, strings
lexicographically, lists lexicographically; other mixes raise TypeError. -/
def pyCompare : Value → Value → Except String Ordering
  | .vstr a, .vstr b => .ok (compare a b)
  | .vlist a, .vlist b => pyCompareList a b
  | a, b =>
    match pyNum? a, pyNum? b with
    | some x, some y => .ok (compare x y)
    | _, _ => .error "TypeError: unorderable operand types"

/-- Lexicographic ordering of Python lists. -/
def pyCompareList : List Value → List Value → Except String Ordering
  | [], [] => .ok .eq
  | [], _ :: _ => .ok .lt
  | _ :: _, [] => .ok .gt
  | a :: xs, b :: ys =>
    if pyEq a b then pyCompareList xs ys else pyCompare a b

end

/-- Value of a digit string. -/
def digitsVal (l : List Char) : Nat :=
  l.foldl (fun a c => a * 10 + (c.toNat - 48)) 0

/-- Modelled from the spec: numeric string parse backing the is_numeric helper
and the float builtin (rake.utils.helpers is not under src).  Spec section 4.1:
subtract performs a numeric parse of its operands, non-numeric coerces to 0.0.
Accepts optional surrounding whitespace, an optional sign, and decimal digits
with an optional fractional part; exponent and special float forms are not
exercised by any verified claim. -/
def parseFloat (s : String) : Option Rat :=
  let cs := (pyStrip s).toList
  let signAndRest : Bool × List Char :=
    match cs with
    | '-' :: rest => (true, rest)
    | '+' :: rest => (false, rest)
    | other => (false, other)
  let neg := signAndRest.1
  let body := signAndRest.2
  let intPart := body.takeWhile Char.isDigit
  let afterInt := body.dropWhile Char.isDigit
  match afterInt with
  | [] =>
    if intPart.isEmpty then none
    else some (if neg then -(digitsVal intPart : Rat) else (digitsVal intPart : Rat))
  | '.' :: fracAll =>
    let fracPart := fracAll.takeWhile Char.isDigit
    let afterFrac := fracAll.dropWhile Char.isDigit
    if afterFrac.isEmpty && (!intPart.isEmpty || !fracPart.isEmpty) then
      let v : Rat := (digitsVal intPart : Rat) + (digitsVal fracPart : Rat) / ((10 : Rat) ^ fracPart.length)
      some (if neg then -v else v)
    else none
  | _ => none

/-- Modelled from the spec: strict integer string parse backing the int
builtin on strings (no fractional part). -/
def parseInt (s : String) : Option Int :=
  let cs := (pyStrip s).toList
  let signAndRest : Bool × List Char :=
    match cs with
    | '-' :: rest => (true, rest)
    | '+' :: rest => (false, rest)
    | other => (false, other)
  let body := signAndRest.2
  if body.isEmpty || !body.all Char.isDigit then none
  else some (if signAndRest.1 then -(digitsVal body : Int) else (digitsVal body : Int))

/-- Modelled from the spec: the float coercion used by subtract, combining
is_numeric with the float builtin (rake.utils.helpers is not under src). -/
def pyFloat? : Value → Option Rat
  | .vbool b => some (if b then 1 else 0)
  | .vint n => some (n : Rat)
  | .vfloat q => some q
  | .vstr s => parseFloat s
  | _ => none

/-- Truncation toward zero, as the Python int builtin does on floats. -/
def ratTrunc (q : Rat) : Int :=
  if q ≥ 0 then q.floor else q.ceil

/-- The Python int builtin applied to a value. -/
def pyToInt : Value → Except String Int
  | .vint n => .ok n
  | .vbool b => .ok (if b then 1 else 0)
  | .vfloat q => .ok (ratTrunc q)
  | .vstr s =>
    match parseInt s with
    | some n => .ok n
    | none => .error "ValueError: invalid literal for int"
  | _ => .error "TypeError: int argument"

/-! Transform pipeline: PageManager.apply_utils in src/rake/core.py lines
695-718.  The utils argument is a Python dict from transform name to argument
list, iterated in insertion order; we model it as an association list.  The
slugify function is an external library capability and enters as a parameter.
Transforms that call a string method on a non-string value raise, modelled by
the error side of Except. -/

/-- One transform step of apply_utils (one case of the match statement). -/
def applyUtil (slugF : String → String) (name : String) (args : List String) (v : Value) :
    Except String Value :=
  match pyStrip name with
  | "prepend" =>
    match args with
    | [] => .ok v
    | a :: _ => .ok (.vstr (a ++ (if pyTruthy v then pyStr v else "")))
  | "lowercase" => .ok (.vstr (pyLower (pyStr v)))
  | "slug" => .ok (.vstr (slugF (pyStr v)))
  | "subtract" =>
    let base : Rat := (pyFloat? v).getD 0
    match args with
    | [] => .ok (.vfloat base)
    | a :: _ =>
      match parseFloat a with
      | some x => .ok (.vfloat (base - x))
      | none => .ok (.vfloat base)
  | "clear_url_params" =>
    match v with
    | .vstr s => .ok (.vstr (beforeQuery s))
    | _ => .error "AttributeError: split"
  | "trim" =>
    match v with
    | .vstr s => .ok (.vstr (pyStrip s))
    | _ => .error "AttributeError: strip"
  | _ => .ok v

/-- PageManager.apply_utils: fold the transform steps over the value in
pipeline order. -/
def apply_utils (slugF : String → String) :
    List (String × List String) → Value → Except String Value
  | [], v => .ok v
  | (name, args) :: rest, v =>
    match applyUtil slugF name args v with
    | .error e => .error e
    | .ok v2 => apply_utils slugF rest v2

/-! Range resolution: PageManager.resolve_range in src/rake/core.py lines
480-489 (identical in src/rake.py lines 517-526).  Range entries come from
the configuration and are YAML scalars: an int or the underscore placeholder
string; each missing entry takes the same default that the placeholder maps
to. -/

/-- PageManager.resolve_range: dict(enumerate(range)).get with defaults,
then the underscore placeholder is mapped to the respective default. -/
def resolve_range (rng : List Value) (maxv : Nat) : Value × Value × Value :=
  let rstart0 := (rng.get? 0).getD (.vint 0)
  let rstart := if pyEq rstart0 (.vstr "_") then .vint 0 else rstart0
  let rstop0 := (rng.get? 1).getD (.vint maxv)
  let rstop := if pyEq rstop0 (.vstr "_") then .vint maxv else rstop0
  let rstep0 := (rng.get? 2).getD (.vint 1)
  let rstep := if pyEq rstep0 (.vstr "_") then .vint 1 else rstep0
  (rstart, rstop, rstep)

/-! Template evaluation: PageManager.evaluate in src/rake/core.py lines
605-621 (identical in src/rake.py lines 331-347).  The getters are produced by
the missing rake.utils.notation.parse_getters as triples of the full matched
getter text, the getter kind (attr or var), and the getter body; the values an
attribute getter or a variable lookup computes enter as parameters (they are
produced against live page state by PageManager.attribute and PageManager.var).
Note the var branch of the source wraps the looked-up value in str, so a var
getter never contributes a list. -/

/-- One parsed getter occurrence inside a template string. -/
structure Getter where
  fullMatch : String
  typ : String
  varName : String

/-- Value computed for one getter, as in the match statement of evaluate:
attr getters resolve through the attribute algorithm, var getters through a
variable lookup wrapped in str, any other kind keeps the matched text. -/
def getterValue (attrVal : String → Value) (varVal : String → String → Value)
    (g : Getter) : Value :=
  match g.typ with
  | "attr" => attrVal g.varName
  | "var" => .vstr (pyStr (varVal g.varName g.fullMatch))
  | _ => .vstr g.fullMatch

/-- The loop body of evaluate: non-list values are substituted textually for
every occurrence of the matched getter text, list values are appended to the
list accumulator and leave the string untouched. -/
def evaluateAux (gv : Getter → Value) :
    List Getter → String → List Value → String × List Value
  | [], s, acc => (s, acc)
  | g :: rest, s, acc =>
    match gv g with
    | .vlist l => evaluateAux gv rest s (acc ++ l)
    | v => evaluateAux gv rest (strReplace s g.fullMatch (pyStr v)) acc

/-- PageManager.evaluate: returns the accumulated list when it is nonempty,
otherwise the substituted string. -/
def evaluate (attrVal : String → Value) (varVal : String → String → Value)
    (getters : List Getter) (string : String) : Value :=
  let r := evaluateAux (getterValue attrVal varVal) getters string []
  if r.2.isEmpty then .vstr r.1 else .vlist r.2

/-- The list values contributed by list-yielding getters, in getter order. -/
def getterLists (gv : Getter → Value) (gs : List Getter) : List (List Value) :=
  gs.filterMap (fun g => match gv g with | .vlist l => some l | _ => none)

/-- The string after substituting every getter that computed a non-list value
(list-yielding getters leave the string untouched). -/
def substGetters (gv : Getter → Value) (gs : List Getter) (s : String) : String :=
  gs.foldl (fun t g =>
    match gv g with
    | .vlist _ => t
    | v => strReplace t g.fullMatch (pyStr v)) s

/-! Conditional repetition: PageManager.should_repeat in src/rake/core.py
lines 450-477 and the repeat branch of PageManager.interact in lines 384-395.
A condition carries an attribute getter (its value key) and a two-element
comparison list (its while key); the value the getter reads from the page
enters as a parameter.  A condition whose getter or comparison is absent, or
whose comparison list does not have exactly two elements, is skipped.  The
page evolves between iterations of the while loop, so the getter environment
is indexed by the iteration number; the loop itself need not terminate, so the
iteration count model is bounded by explicit fuel (none means the bound was
exhausted before the guard failed). -/

/-- One repeat condition from an interaction spec. -/
structure Condition (α : Type) where
  value : Option α
  whileList : Option (List Value)

/-- One comparison of should_repeat: true means the loop keeps going, false
models the early return False, errors model Python comparison TypeErrors.
An unrecognized operator matches no case and keeps the loop going. -/
def evalCondition (value op operand : Value) : Except String Bool :=
  match op with
  | .vstr "equal" => .ok (pyEq value operand)
  | .vstr "is" => .ok (pyEq value operand)
  | .vstr "not_equal" => .ok (!pyEq value operand)
  | .vstr "not" => .ok (!pyEq value operand)
  | .vstr "greater_than" =>
    match pyCompare value operand with
    | .error e => .error e
    | .ok o => .ok (o == .gt)
  | .vstr "less_than" =>
    match pyCompare value operand with
    | .error e => .error e
    | .ok o => .ok (o == .lt)
  | .vstr "greater_than_or_equal" =>
    match pyCompare value operand with
    | .error e => .error e
    | .ok o => .ok (o != .lt)
  | .vstr "less_than_or_equal" =>
    match pyCompare value operand with
    | .error e => .error e
    | .ok o => .ok (o != .gt)
  | _ => .ok true

/-- Check of a single condition inside the loop of should_repeat: conditions
with a missing getter, missing comparison, or a comparison list whose length
is not two are skipped (the loop continues past them). -/
def condCheck {α : Type} (attrVal : α → Value) (c : Condition α) : Except String Bool :=
  match c.value, c.whileList with
  | some vg, some [op, operand] => evalCondition (attrVal vg) op operand
  | _, _ => .ok true

/-- PageManager.should_repeat: walk the conditions in order; the first failing
comparison returns False immediately, otherwise the result is True. -/
def should_repeat {α : Type} (attrVal : α → Value) : List (Condition α) → Except String Bool
  | [] => .ok true
  | c :: rest =>
    match condCheck attrVal c with
    | .error e => .error e
    | .ok false => .ok false
    | .ok true => should_repeat attrVal rest

/-- The while branch of PageManager.interact, counting how many times the node
list is browsed: the guard is re-evaluated against the current page snapshot
before every iteration including the first. -/
def repeat_loop {α : Type} (f : Nat → α → Value) (conds : List (Condition α)) :
    Nat → Except String (Option Nat)
  | 0 => .ok none
  | fuel + 1 =>
    match should_repeat (f 0) conds with
    | .error e => .error e
    | .ok false => .ok (some 0)
    | .ok true =>
      match repeat_loop (fun k => f (k + 1)) conds fuel with
      | .error e => .error e
      | .ok none => .ok none
      | .ok (some n) => .ok (some (n + 1))

/-- The repeat field of an interaction spec: an int count or a condition list. -/
inductive RepeatSpec (α : Type) where
  | count (n : Int)
  | conds (cs : List (Condition α))

/-- PageManager.interact, projected to the number of times the node list runs:
no repeat key browses once, an int repeat browses that many times (a negative
count, like an empty Python range, browses zero times), a condition list
drives the guarded while loop. -/
def interact_count {α : Type} (f : Nat → α → Value) (repeatSpec : Option (RepeatSpec α))
    (fuel : Nat) : Except String (Option Nat) :=
  match repeatSpec with
  | none => .ok (some 1)
  | some (.count n) => .ok (some n.toNat)
  | some (.conds cs) => repeat_loop f cs fuel

/-! Node browsing: PageManager.browse in src/rake/core.py lines 398-447.
The claim under verification concerns which alternative of an alternative
group executes, so browse is projected onto the trace of executed pipelines:
for every node whose selector matched, the node together with the element
indices its pipeline (actions, links, data, nested interact) runs on, in
order.  Element location is the external Page Automation Provider capability
and enters as a parameter from selector and the contains/excludes text
filters.  The variable bookkeeping (the node and nth entries of the session
scope) and the pipeline side effects are outside this projection. -/

/-- The selection-relevant fields of a node spec. -/
structure Node where
  name : Option String
  selector : String
  contains : Option String
  excludes : Option String
  allFlag : Bool
  range : List Value
  waitMs : Option Nat

/-- Element location for a node: page.locator(selector, has_text, has_not_text)
followed by .all(), provided by the Page Automation Provider. -/
def nodeLocs {ε : Type} (locsFor : String → Option String → Option String → List ε)
    (n : Node) : List ε :=
  locsFor n.selector n.contains n.excludes

/-- Python slice index normalization: negative indices count from the end,
out-of-bounds indices clamp. -/
def pyNormIdx (n : Nat) (i : Int) : Nat :=
  if i < 0 then ((n : Int) + i).toNat else min i.toNat n

/-- Python list slice l[a:b]. -/
def pySlice {ε : Type} (l : List ε) (a b : Int) : List ε :=
  let a2 := pyNormIdx l.length a
  let b2 := pyNormIdx l.length b
  (l.drop a2).take (b2 - a2)

/-- Indices produced by Python range(0, n, step) for a positive step. -/
def strideIdx (n step : Nat) : List Nat :=
  (List.range n).filter (fun i => i % step == 0)

/-- Element selection of browse for one matched node: slice the located
elements by the resolved range, restrict to the first element unless the all
flag is set, then iterate by the range step, pairing each element with the
index recorded in the nth session variable.  A zero range step raises as the
Python range builtin does; a negative step yields an empty Python range. -/
def select_elems {ε : Type} (locs : List ε) (allFlag : Bool) (rng : List Value) :
    Except String (List (Nat × ε)) :=
  match resolve_range rng locs.length with
  | (.vint a, .vint b, .vint st) =>
    if st = 0 then .error "ValueError: range arg 3 must not be zero"
    else if st < 0 then .ok []
    else
      let sliced := pySlice locs a b
      let firsted := if allFlag then sliced else sliced.take 1
      .ok ((strideIdx firsted.length st.toNat).filterMap
        (fun i => (firsted.get? i).map (fun e => (i, e))))
  | _ => .error "TypeError: slice indices must be integers"

/-- The inner loop of browse over the alternatives of one group: a node with a
configured wait whose elements never appear raises the (fatal) wait timeout,
a node with zero matches is passed over, and the first node with a nonzero
match count has its pipeline executed, after which the loop breaks.  The
waitOk parameter reports whether the provider-side wait of a node succeeded
within its timeout. -/
def browse_group {ε : Type} (locsFor : String → Option String → Option String → List ε)
    (waitOk : Node → Bool) : List Node → Except String (List (Node × List (Nat × ε)))
  | [] => .ok []
  | n :: rest =>
    if n.waitMs.isSome && !waitOk n then .error "TimeoutError: waiting for locator"
    else
      let locs := nodeLocs locsFor n
      if locs.length = 0 then browse_group locsFor waitOk rest
      else
        match select_elems locs n.allFlag n.range with
        | .error e => .error e
        | .ok sel => .ok [(n, sel)]

/-- An entry of a node list: a plain node or an alternative group. -/
inductive NodeEntry where
  | single (n : Node)
  | group (alts : List Node)

/-- PageManager.browse, projected onto the executed-pipeline trace: each entry
is normalized to a list of alternatives and handed to the group loop. -/
def browse {ε : Type} (locsFor : String → Option String → Option String → List ε)
    (waitOk : Node → Bool) : List NodeEntry → Except String (List (Node × List (Nat × ε)))
  | [] => .ok []
  | e :: rest =>
    let alts := match e with | .single n => [n] | .group l => l
    match browse_group locsFor waitOk alts with
    | .error er => .error er
    | .ok tr =>
      match browse locsFor waitOk rest with
      | .error er => .error er
      | .ok tr2 => .ok (tr ++ tr2)

/-! Attribute resolution: PageManager.attribute in src/rake/core.py lines
624-680.  The parsed form of a string getter (produced by the missing
rake.utils.notation.parse_value, per the attribute getter grammar of spec
section 4.1) and the field reads of a dict getter both yield the same record
of property name, child-node index, selector, cardinality, context, transform
pipeline, and variable-binding name.  Element location and property reads are
Page Automation Provider capabilities and enter through an environment. -/

/-- The resolved fields of an attribute getter. -/
structure AttrSpec where
  attr : Option String
  child_node : Option Nat
  selector : Option String
  max : String
  ctx : String
  utils : List (String × List String)
  var_name : Option String

/-- The provider-side capabilities attribute resolution consumes. -/
structure PageEnv (ε : Type) where
  locsParent : String → List ε
  locsPage : String → List ε
  readProp : ε → Option Nat → String → Value
  isDisabled : ε → Bool

/-- Assignment into a Python dict: update an existing key in place, append a
new key at the end. -/
def dictSet (d : Dict) (k : String) (v : Value) : Dict :=
  if d.any (fun kv => kv.1 = k) then
    d.map (fun kv => if kv.1 = k then (k, v) else kv)
  else d ++ [(k, v)]

/-- Element scope of attribute resolution: with a selector, re-locate from the
current element (parent context) or the whole page (page context); with no
selector, or an unrecognized context, the current element itself. -/
def attrLocs {ε : Type} (env : PageEnv ε) (cur : ε) (na : AttrSpec) : List ε :=
  match na.selector with
  | some sel =>
    match na.ctx with
    | "parent" => env.locsParent sel
    | "page" => env.locsPage sel
    | _ => [cur]
  | none => [cur]

/-- Per-element property read loop of attribute: href, src and text read the
corresponding node property (text reads textContent, optionally of the given
child node), disabled reads the disabled state, any other recognized-free name
leaves the value None; a nonempty transform pipeline is then applied. -/
def readValues {ε : Type} (slugF : String → String) (env : PageEnv ε) (attr : String)
    (childNode : Option Nat) (utils : List (String × List String)) :
    List ε → Except String (List Value)
  | [] => .ok []
  | loc :: rest =>
    let value : Value :=
      if attr = "href" ∨ attr = "src" ∨ attr = "text" then
        env.readProp loc childNode (if attr = "text" then "textContent" else attr)
      else if attr = "disabled" then .vbool (env.isDisabled loc)
      else .vnone
    match (if utils.length = 0 then .ok value else apply_utils slugF utils value) with
    | .error e => .error e
    | .ok v =>
      match readValues slugF env attr childNode utils rest with
      | .error e => .error e
      | .ok vs => .ok (v :: vs)

/-- PageManager.attribute: a missing or empty property name raises; the count
property short-circuits to the (transformed) element count; cardinality one
restricts to the first element before reading and collapses the value list to
its first element or the empty string after reading; a variable-binding name
stores the collapsed result into the session scope. -/
def attributeRead {ε : Type} (slugF : String → String) (env : PageEnv ε) (cur : ε)
    (vars : Dict) (na : AttrSpec) : Except String (Value × Dict) :=
  match na.attr with
  | none => .error "Attribute to extract not define"
  | some attr =>
    if attr = "" then .error "Attribute to extract not define"
    else
      let locs := attrLocs env cur na
      if attr = "count" then
        match apply_utils slugF na.utils (.vint locs.length) with
        | .error e => .error e
        | .ok v =>
          match pyToInt v with
          | .error e => .error e
          | .ok n => .ok (.vint n, vars)
      else
        let locs2 := if na.max = "one" then locs.take 1 else locs
        match readValues slugF env attr na.child_node na.utils locs2 with
        | .error e => .error e
        | .ok values =>
          let result := if na.max = "one" then values.headD (.vstr "") else .vlist values
          let vars2 :=
            match na.var_name with
            | some vn => dictSet vars vn result
            | none => vars
          .ok (result, vars2)

/-! Link resolution: Rake.resolve_page_link in src/rake/core.py lines 208-221
(identical in src/rake.py lines 501-514).  A link spec is a single string or
dict, or a list of either; the link registry maps group names to ordered lists
of link dicts. -/

/-- Modelled from the spec: helpers.pick keeps only the listed keys of a dict
(rake.utils.helpers is not under src); the source comment says it excludes
internally set keys such as parent. -/
def pick (d : Dict) (keys : List String) : Dict :=
  d.filter (fun kv => keys.contains kv.1)

/-- One entry of a page link spec. -/
inductive PageLinkSpec where
  | pstr (s : String)
  | pobj (d : Dict)

/-- Registry lookup with an empty default, as dict.get(name, []). -/
def regGet (reg : List (String × List Dict)) (name : String) : List Dict :=
  ((reg.find? (fun p => p.1 = name)).map Prod.snd).getD []

/-- The loop of resolve_page_link over the normalized url list: a dict keeps
its url and metadata keys, a string starting with the dollar marker splices in
the referenced registry group (empty when the group does not exist), any other
string becomes a fresh entry with empty metadata. -/
def resolveLinkLoop (reg : List (String × List Dict)) : List PageLinkSpec → List Dict
  | [] => []
  | .pobj d :: rest => pick d ["url", "metadata"] :: resolveLinkLoop reg rest
  | .pstr s :: rest =>
    if strFirstIs s '$' then regGet reg (strRest s) ++ resolveLinkLoop reg rest
    else ([("url", .vstr s), ("metadata", .vdict [])] : Dict) :: resolveLinkLoop reg rest

/-- Rake.resolve_page_link: a bare string or dict is wrapped into a singleton
list, then the loop runs over the entries in order. -/
def resolve_page_link (reg : List (String × List Dict))
    (url : PageLinkSpec ⊕ List PageLinkSpec) : List Dict :=
  let urls := match url with | .inl u => [u] | .inr l => l
  resolveLinkLoop reg urls

/-! Run entry point: Rake.start in src/rake/core.py lines 50-65.  The body of
the run (launching the browser, walking the page specs, all provider calls)
enters as a function from the instance state to the instance state it leaves
behind together with an optional raised error: the Python state dict is
mutated in place, so the state the body leaves behind survives in the
instance either way.  On success start returns the pair of no error and the
data tree (after data() pushed the configured outputs to the Sink); on an
exception it returns the pair of the error and Python None, modelled as
Option none.  The finally block (closing the browser, logging) does not touch
the returned pair or the state. -/

/-- The shared instance state: result tree and link registry. -/
structure RState where
  data : Dict
  links : List (String × List Dict)

/-- Rake.start: the returned pair and the instance state after the run. -/
def start (run : RState → RState × Option String) (s0 : RState) :
    (Option String × Option Dict) × RState :=
  let r := run s0
  match r.2 with
  | none => ((none, some r.1.data), r.1)
  | some e => ((some e, none), r.1)

/-! Session variable scopes under Python reference semantics: PageManager
init in src/rake/core.py lines 314-322 binds the vars attribute to the very
metadata dict of its visit target (no copy is taken) and then writes the url
entry into it, and PageManager.add_links in lines 583-602 builds one metadata
dict per link config and appends it, by reference, into every registry entry
produced from a list-valued url evaluation.  To make this sharing observable
the dicts live in an explicit heap of addresses. -/

/-- A heap of Python dict objects. -/
structure Heap where
  next : Nat
  mem : List (Nat × Dict)

/-- The empty heap. -/
def emptyHeap : Heap := ⟨0, []⟩

/-- Allocate a fresh dict object. -/
def halloc (h : Heap) (d : Dict) : Heap × Nat :=
  (⟨h.next + 1, (h.next, d) :: h.mem⟩, h.next)

/-- Read a dict object. -/
def hget (h : Heap) (a : Nat) : Dict :=
  ((h.mem.find? (fun p => p.1 = a)).map Prod.snd).getD []

/-- Write one key of a dict object in place. -/
def hsetKey (h : Heap) (a : Nat) (k : String) (v : Value) : Heap :=
  ⟨h.next, h.mem.map (fun p => if p.1 = a then (p.1, dictSet p.2 k v) else p)⟩

/-- A visit target as stored in the link registry: the url value and a
reference to the metadata dict object (none when the metadata key is absent). -/
structure LinkRef where
  url : Value
  metadata : Option Nat

/-- Append entries to a named registry group, creating the group first when
absent (the two steps of add_links on the registry dict). -/
def regAppend (reg : List (String × List LinkRef)) (name : String)
    (entries : List LinkRef) : List (String × List LinkRef) :=
  if reg.any (fun p => p.1 = name) then
    reg.map (fun p => if p.1 = name then (p.1, p.2 ++ entries) else p)
  else reg ++ [(name, entries)]

/-- PageManager.add_links for one link config, given the already evaluated url
result and metadata values: one metadata dict object is allocated and every
appended entry references that same object; a list-valued url result appends
one entry per element. -/
def add_link (h : Heap) (reg : List (String × List LinkRef)) (name : String)
    (urlResult : Value) (metaVals : Dict) : Heap × List (String × List LinkRef) :=
  let hm := halloc h metaVals
  let entries :=
    match urlResult with
    | .vlist l => l.map (fun u => LinkRef.mk u (some hm.2))
    | v => [LinkRef.mk v (some hm.2)]
  (hm.1, regAppend reg name entries)

/-- The registry branch of resolve_page_link under reference semantics: the
returned visit targets are the stored entries themselves, metadata references
included. -/
def resolveRegistryRef (reg : List (String × List LinkRef)) (name : String) : List LinkRef :=
  ((reg.find? (fun p => p.1 = name)).map Prod.snd).getD []

/-- A page session, carrying the dict object its variable scope is bound to. -/
structure Session where
  varsAddr : Nat

/-- PageManager init: the session variable scope is bound to the metadata dict
object of the visit target itself (a fresh empty dict only when the metadata
key is absent), then the url entry is written into that object. -/
def pm_init (h : Heap) (link : LinkRef) : Heap × Session :=
  match link.metadata with
  | some a => (hsetKey h a "_url" link.url, ⟨a⟩)
  | none =>
    let ha := halloc h []
    (hsetKey ha.1 ha.2 "_url" link.url, ⟨ha.2⟩)

/-- A write into a session variable scope. -/
def setVar (h : Heap) (s : Session) (k : String) (v : Value) : Heap :=
  hsetKey h s.varsAddr k v

/-- A read from a session variable scope. -/
def getVar (h : Heap) (s : Session) (k : String) : Option Value :=
  ((hget h s.varsAddr).find? (fun kv => kv.1 = k)).map Prod.snd

/-! Concrete instances used by counterexamples and witnesses. -/

/-- An attribute environment in which every getter computes the empty list,
as an attribute getter with cardinality all and zero matched elements does. -/
def c3AttrEmpty : String → Value := fun _ => .vlist []

/-- A variable environment returning the supplied default. -/
def c3VarId : String → String → Value := fun _ d => .vstr d

/-- A single attribute getter occurrence with matched text G. -/
def c3Getter : Getter := ⟨"G", "attr", "x"⟩

/-- A run body that accumulates one data entry into the instance state and
then raises. -/
def c1CrashRun : RState → RState × Option String :=
  fun s => (⟨[("k", .vstr "v")], s.links⟩, some "boom")

/-- Link collection of one link config named g whose url template evaluated
to the list of the strings a and b, with no metadata templates, from the
empty registry and heap. -/
def c5Step1 : Heap × List (String × List LinkRef) :=
  add_link emptyHeap [] "g" (.vlist [.vstr "a", .vstr "b"]) []

/-- The visit targets a later page spec obtains by referencing the g group. -/
def c5Links : List LinkRef := resolveRegistryRef c5Step1.2 "g"

/-- The first resolved visit target. -/
def c5LinkA : LinkRef := c5Links.headD ⟨.vnone, none⟩

/-- The second resolved visit target. -/
def c5LinkB : LinkRef := (c5Links.drop 1).headD ⟨.vnone, none⟩

/-- The page session opened for the first visit target. -/
def c5SessA : Heap × Session := pm_init c5Step1.1 c5LinkA

/-- The page session opened for the second visit target, on the heap the
first session left behind. -/
def c5SessB : Heap × Session := pm_init c5SessA.1 c5LinkB

/-- The heap after the first session writes the variable named secret into
its own variable scope. -/
def c5HeapW : Heap := setVar c5SessB.1 c5SessA.2 "secret" (.vstr "leak")

/-! Theorems. -/

/-- The loop of evaluate splits into its two accumulators: the final string
carries the substitutions of all non-list getter values, and the final list
accumulator extends the input accumulator with the concatenation of all list
getter values in order. -/
theorem evaluateAux_spec (gv : Getter → Value) (gs : List Getter) (s : String)
    (acc : List Value) :
    evaluateAux gv gs s acc = (substGetters gv gs s, acc ++ (getterLists gv gs).flatten) := by
  induction gs generalizing s acc with
  | nil => simp [evaluateAux, substGetters, getterLists]
  | cons g rest ih =>
    cases hg : gv g with
    | vlist l => simp [evaluateAux, substGetters, getterLists, hg, ih]
    | vnone => simp [evaluateAux, substGetters, getterLists, hg, ih]
    | vbool b => simp [evaluateAux, substGetters, getterLists, hg, ih]
    | vint n => simp [evaluateAux, substGetters, getterLists, hg, ih]
    | vfloat q => simp [evaluateAux, substGetters, getterLists, hg, ih]
    | vstr s2 => simp [evaluateAux, substGetters, getterLists, hg, ih]
    | vdict d => simp [evaluateAux, substGetters, getterLists, hg, ih]

/-- When no getter computes a list value, the substituted string substitutes
every getter. -/
theorem substGetters_total (gv : Getter → Value) (gs : List Getter) (s : String)
    (h : getterLists gv gs = []) :
    substGetters gv gs s =
      gs.foldl (fun t g => strReplace t g.fullMatch (pyStr (gv g))) s := by
  induction gs generalizing s with
  | nil => rfl
  | cons g rest ih =>
    cases hg : gv g with
    | vlist l => simp [getterLists, hg] at h
    | vnone =>
      simp only [getterLists, List.filterMap_cons, hg] at h
      simp [substGetters, getterLists, hg, List.foldl_cons]
      exact ih _ h
    | vbool b =>
      simp only [getterLists, List.filterMap_cons, hg] at h
      simp [substGetters, getterLists, hg, List.foldl_cons]
      exact ih _ h
    | vint n =>
      simp only [getterLists, List.filterMap_cons, hg] at h
      simp [substGetters, getterLists, hg, List.foldl_cons]
      exact ih _ h
    | vfloat q =>
      simp only [getterLists, List.filterMap_cons, hg] at h
      simp [substGetters, getterLists, hg, List.foldl_cons]
      exact ih _ h
    | vstr s2 =>
      simp only [getterLists, List.filterMap_cons, hg] at h
      simp [substGetters, getterLists, hg, List.foldl_cons]
      exact ih _ h
    | vdict d =>
      simp only [getterLists, List.filterMap_cons, hg] at h
      simp [substGetters, getterLists, hg, List.foldl_cons]
      exact ih _ h

/-- C3 counterexample: a getter can compute a list value (the empty list, as
an attribute getter with cardinality all and zero matched elements does)
while the evaluation result is still a string: the template comes back with
the getter text left in place, not the concatenation of the computed list
values.  This refutes the claim that whenever any getter computes a list the
result is a list. -/
theorem c3_counterexample :
    getterValue c3AttrEmpty c3VarId c3Getter = .vlist []
    ∧ evaluate c3AttrEmpty c3VarId [c3Getter] "aGb" = .vstr "aGb"
    ∧ Value.vstr "aGb" ≠ .vlist [] := by
  refine ⟨rfl, rfl, fun h => Value.noConfusion h⟩

/-- C3 (amended): if the concatenation of the list values computed by the
getters of a template is nonempty, evaluation returns exactly that
concatenation in getter order; otherwise evaluation returns the template
string with every getter that computed a non-list value textually replaced by
its (stringified) value, list-computing getters being left unsubstituted; in
particular when no getter computes a list at all, the result is the fully
substituted string. -/
theorem c3_evaluate_amended (attrVal : String → Value) (varVal : String → String → Value)
    (gs : List Getter) (s : String) :
    ((getterLists (getterValue attrVal varVal) gs).flatten ≠ [] →
      evaluate attrVal varVal gs s =
        .vlist (getterLists (getterValue attrVal varVal) gs).flatten)
    ∧ ((getterLists (getterValue attrVal varVal) gs).flatten = [] →
      evaluate attrVal varVal gs s =
        .vstr (substGetters (getterValue attrVal varVal) gs s))
    ∧ (getterLists (getterValue attrVal varVal) gs = [] →
      evaluate attrVal varVal gs s =
        .vstr (gs.foldl
          (fun t g => strReplace t g.fullMatch (pyStr (getterValue attrVal varVal g))) s)) := by
  refine ⟨?_, ?_, ?_⟩
  · intro h
    simp [evaluate, evaluateAux_spec, h]
  · intro h
    simp [evaluate, evaluateAux_spec, h]
  · intro h
    have h2 : (getterLists (getterValue attrVal varVal) gs).flatten = [] := by
      rw [h]; rfl
    rw [← substGetters_total (getterValue attrVal varVal) gs s h]
    simp [evaluate, evaluateAux_spec, h2]

/-- Witness for the amended C3 at a getter computing a nonempty list. -/
theorem c3_evaluate_amended_witness :
    evaluate (fun _ => Value.vlist [Value.vstr "u", Value.vstr "v"]) c3VarId [c3Getter] "aGb"
      = .vlist [Value.vstr "u", Value.vstr "v"] :=
  (c3_evaluate_amended (fun _ => Value.vlist [Value.vstr "u", Value.vstr "v"]) c3VarId
    [c3Getter] "aGb").1 (fun h => List.noConfusion h)

/-- The loop of should_repeat returns True exactly when every condition
check in the list passes (skipped conditions pass vacuously). -/
theorem should_repeat_iff {α : Type} (f : α → Value) (conds : List (Condition α)) :
    should_repeat f conds = .ok true ↔ ∀ c ∈ conds, condCheck f c = .ok true := by
  induction conds with
  | nil => simp [should_repeat]
  | cons c rest ih =>
    cases hc : condCheck f c with
    | error e => simp [should_repeat, hc]
    | ok b =>
      cases b with
      | false => simp [should_repeat, hc]
      | true => simp [should_repeat, hc, ih]

/-- C2: conditional repetition.  The is and not operators are aliases of
equal and not_equal; the condition list is checked in order and the first
failing condition alone already forces the guard to False whatever follows
it; the guard is True exactly when every condition holds; a False guard
before the first iteration means the node list runs zero times; and in
particular a single condition comparing an attribute value against the string
true with the equal operator yields zero iterations whenever the attribute
initially reads anything other than true. -/
theorem c2_conditional_repeat :
    (∀ v w : Value,
      evalCondition v (.vstr "is") w = .ok (pyEq v w)
      ∧ evalCondition v (.vstr "equal") w = .ok (pyEq v w)
      ∧ evalCondition v (.vstr "not") w = .ok (!pyEq v w)
      ∧ evalCondition v (.vstr "not_equal") w = .ok (!pyEq v w))
    ∧ (∀ (α : Type) (f : α → Value) (conds : List (Condition α)),
      should_repeat f conds = .ok true ↔ ∀ c ∈ conds, condCheck f c = .ok true)
    ∧ (∀ (α : Type) (f : α → Value) (c : Condition α) (rest : List (Condition α)),
      condCheck f c = .ok false → should_repeat f (c :: rest) = .ok false)
    ∧ (∀ (α : Type) (f : Nat → α → Value) (conds : List (Condition α)) (fuel : Nat),
      should_repeat (f 0) conds = .ok false →
      interact_count f (some (.conds conds)) (fuel + 1) = .ok (some 0))
    ∧ (∀ (α : Type) (f : Nat → α → Value) (conds : List (Condition α)) (fuel : Nat),
      should_repeat (f 0) conds = .ok true →
      interact_count f (some (.conds conds)) (fuel + 1) =
        (repeat_loop (fun k => f (k + 1)) conds fuel).map (Option.map (· + 1)))
    ∧ (∀ (α : Type) (f : Nat → α → Value) (vg : α) (s : String) (fuel : Nat),
      f 0 vg = .vstr s → s ≠ "true" →
      interact_count f (some (.conds [⟨some vg, some [.vstr "equal", .vstr "true"]⟩]))
        (fuel + 1) = .ok (some 0)) := by
  refine ⟨fun v w => ⟨rfl, rfl, rfl, rfl⟩, fun α f conds => should_repeat_iff f conds,
    ?_, ?_, ?_, ?_⟩
  · intro α f c rest h
    simp [should_repeat, h]
  · intro α f conds fuel h
    simp [interact_count, repeat_loop, h]
  · intro α f conds fuel h
    simp only [interact_count, repeat_loop, h]
    cases hr : repeat_loop (fun k => f (k + 1)) conds fuel with
    | error e => simp [Except.map]
    | ok o =>
      cases o with
      | none => simp [Except.map]
      | some n => simp [Except.map]
  · intro α f vg s fuel hval hne
    have hcheck : condCheck (f 0) (⟨some vg, some [.vstr "equal", .vstr "true"]⟩ : Condition α)
        = .ok false := by
      simp only [condCheck, evalCondition, hval]
      have : pyEq (.vstr s) (.vstr "true") = false := by
        simp [pyEq, hne]
      rw [this]
    have hsr : should_repeat (f 0)
        [(⟨some vg, some [.vstr "equal", .vstr "true"]⟩ : Condition α)] = .ok false := by
      simp [should_repeat, hcheck]
    simp [interact_count, repeat_loop, hsr]

/-- Witness for C2 at a concrete attribute snapshot reading the string no. -/
theorem c2_conditional_repeat_witness :
    interact_count (fun _ (_ : String) => Value.vstr "no")
      (some (.conds [⟨some "g", some [.vstr "equal", .vstr "true"]⟩])) 6 = .ok (some 0) :=
  c2_conditional_repeat.2.2.2.2.2 String (fun _ _ => Value.vstr "no") "g" "no" 5 rfl
    (by decide)

/-- C6: range resolution defaults.  resolve_range of the empty range over 10
matches is (0, 10, 1); an underscore start and step with stop 5 give
(0, 5, 1); start 2 and step 2 with an underscore stop give (2, 10, 2); and in
general each omitted or underscore component of (start, stop, step) defaults
to 0, the match count, and 1 respectively. -/
theorem c6_resolve_range :
    resolve_range [] 10 = (.vint 0, .vint 10, .vint 1)
    ∧ resolve_range [.vstr "_", .vint 5, .vstr "_"] 10 = (.vint 0, .vint 5, .vint 1)
    ∧ resolve_range [.vint 2, .vstr "_", .vint 2] 10 = (.vint 2, .vint 10, .vint 2)
    ∧ (∀ (rng : List Value) (maxv : Nat),
      ((rng.get? 0 = none ∨ rng.get? 0 = some (.vstr "_")) →
        (resolve_range rng maxv).1 = .vint 0)
      ∧ ((rng.get? 1 = none ∨ rng.get? 1 = some (.vstr "_")) →
        (resolve_range rng maxv).2.1 = .vint maxv)
      ∧ ((rng.get? 2 = none ∨ rng.get? 2 = some (.vstr "_")) →
        (resolve_range rng maxv).2.2 = .vint 1)) := by
  have hne : ∀ (n : Int) (s : String), pyEq (.vint n) (.vstr s) = false := fun _ _ => rfl
  have hus : pyEq (.vstr "_") (.vstr "_") = true := rfl
  refine ⟨rfl, rfl, rfl, ?_⟩
  intro rng maxv
  refine ⟨?_, ?_, ?_⟩ <;> rintro (h | h) <;>
    simp only [List.get?_eq_getElem?] at h <;>
    simp [resolve_range, h, hne, hus]

/-- Witness for C6 at a concrete underscore component. -/
theorem c6_resolve_range_witness :
    (resolve_range [Value.vstr "_"] 7).1 = Value.vint 0 :=
  (c6_resolve_range.2.2.2 [Value.vstr "_"] 7).1 (Or.inr rfl)

/-- C7: transform pipeline reference semantics.  Applying trim then lowercase
to a padded uppercase string gives the trimmed lowercase string; subtract with
argument 3 on the string 10 gives the float 7.0; subtract with no numeric base
coerces the base to 0.0; and a transform whose (stripped) name is none of the
recognized six is a no-op on any value. -/
theorem c7_transforms (slugF : String → String) :
    apply_utils slugF [("trim", []), ("lowercase", [])] (.vstr "  ABC  ") = .ok (.vstr "abc")
    ∧ apply_utils slugF [("subtract", ["3"])] (.vstr "10") = .ok (.vfloat 7)
    ∧ apply_utils slugF [("subtract", [])] (.vstr "x") = .ok (.vfloat 0)
    ∧ ∀ (name : String) (args : List String) (v : Value),
      pyStrip name ∉
        (["prepend", "lowercase", "slug", "subtract", "clear_url_params", "trim"] :
          List String) →
      apply_utils slugF [(name, args)] v = .ok v := by
  refine ⟨rfl, ?_, rfl, ?_⟩
  · have h : ((10 : Rat) - 3) = 7 := by norm_num
    rw [← h]; rfl
  · intro name args v h
    simp only [List.mem_cons, List.mem_singleton, not_or] at h
    have hu : applyUtil slugF name args v = Except.ok v := by
      unfold applyUtil
      split
      all_goals first
        | rfl
        | (exfalso; simp_all)
    simp [apply_utils, hu]

/-- Witness for C7 at a concrete unknown transform name. -/
theorem c7_transforms_witness :
    apply_utils id [("frob", ["1"])] (.vstr "z") = .ok (.vstr "z") :=
  (c7_transforms id).2.2.2 "frob" ["1"] (.vstr "z") (by decide)

/-- C4: alternative-group selection.  Within one group, an alternative whose
selector matches zero elements (and that configures no wait) is passed over;
the first alternative with a nonzero match count is the only one whose
pipeline executes, whatever alternatives follow it; and in the concrete
group of two alternatives where the first matches zero elements and the
second matches two, only the second alternative executes, on the first of its
matched elements (default range and all flag). -/
theorem c4_alternative_group :
    (∀ (ε : Type) (locsFor : String → Option String → Option String → List ε)
      (waitOk : Node → Bool) (n : Node) (rest : List Node),
      n.waitMs = none → nodeLocs locsFor n = [] →
      browse_group locsFor waitOk (n :: rest) = browse_group locsFor waitOk rest)
    ∧ (∀ (ε : Type) (locsFor : String → Option String → Option String → List ε)
      (waitOk : Node → Bool) (n : Node) (rest : List Node),
      n.waitMs = none → nodeLocs locsFor n ≠ [] →
      browse_group locsFor waitOk (n :: rest) = browse_group locsFor waitOk [n])
    ∧ (∀ (ε : Type) (locsFor : String → Option String → Option String → List ε)
      (waitOk : Node → Bool) (A B : Node) (e1 e2 : ε),
      A.waitMs = none → B.waitMs = none → B.allFlag = false → B.range = [] →
      nodeLocs locsFor A = [] → nodeLocs locsFor B = [e1, e2] →
      browse locsFor waitOk [.group [A, B]] = .ok [(B, [(0, e1)])]) := by
  refine ⟨?_, ?_, ?_⟩
  · intro ε locsFor waitOk n rest hw hl
    simp [browse_group, hw, hl]
  · intro ε locsFor waitOk n rest hw hl
    simp [browse_group, hw, hl]
  · intro ε locsFor waitOk A B e1 e2 hwA hwB hall hrng hA hB
    have hsel : select_elems [e1, e2] B.allFlag B.range = .ok [(0, e1)] := by
      rw [hall, hrng]; rfl
    simp [browse, browse_group, hwA, hwB, hA, hB, hsel]

/-- Witness for C4 at a concrete group over natural-number elements. -/
theorem c4_alternative_group_witness :
    browse (fun sel _ _ => if sel = "B" then [10, 20] else ([] : List Nat))
      (fun _ => true)
      [.group [⟨none, "A", none, none, false, [], none⟩,
        ⟨none, "B", none, none, false, [], none⟩]] =
      .ok [(⟨none, "B", none, none, false, [], none⟩, [(0, 10)])] :=
  c4_alternative_group.2.2 Nat (fun sel _ _ => if sel = "B" then [10, 20] else [])
    (fun _ => true) ⟨none, "A", none, none, false, [], none⟩
    ⟨none, "B", none, none, false, [], none⟩ 10 20 rfl rfl rfl rfl (by decide) (by decide)

/-- C10: an attribute getter of cardinality one (the default) whose property
is a present non-count name and whose selector resolution matches zero
elements evaluates to the empty string: no error is raised and the result is
neither None nor a list, and the only state effect is binding the empty
string when a variable-binding name is present. -/
theorem c10_attribute_empty {ε : Type} (slugF : String → String) (env : PageEnv ε)
    (cur : ε) (vars : Dict) (na : AttrSpec) (a : String) :
    na.attr = some a → a ≠ "count" → a ≠ "" → na.max = "one" →
    attrLocs env cur na = [] →
    attributeRead slugF env cur vars na =
      .ok (.vstr "",
        match na.var_name with
        | some vn => dictSet vars vn (.vstr "")
        | none => vars) := by
  intro ha hcount hempty hmax hlocs
  simp [attributeRead, ha, hcount, hempty, hmax, hlocs, readValues]

/-- Witness for C10 at a concrete getter with a selector matching nothing. -/
theorem c10_attribute_empty_witness :
    attributeRead id
      (PageEnv.mk (fun _ => ([] : List Unit)) (fun _ => []) (fun _ _ _ => .vnone)
        (fun _ => false))
      () [] (AttrSpec.mk (some "text") none (some ".x") "one" "parent" [] none) =
      .ok (.vstr "", []) :=
  c10_attribute_empty id
    (PageEnv.mk (fun _ => ([] : List Unit)) (fun _ => []) (fun _ _ _ => .vnone)
      (fun _ => false))
    () [] (AttrSpec.mk (some "text") none (some ".x") "one" "parent" [] none) "text"
    rfl (by decide) (by decide) rfl rfl

/-- C8: link-spec resolution.  A string carrying the dollar marker resolves
to the referenced registry group in its stored order, and to the empty
sequence (not an error) when the group does not exist; a plain string becomes
a single entry with that url and empty metadata; a list resolves entrywise in
list order; and concretely, against a registry whose leads group holds the
entries with urls a and b, the dollar reference to leads returns exactly
those two entries in order while the dollar reference to a missing group
returns the empty sequence. -/
theorem c8_resolve_page_link :
    (∀ (reg : List (String × List Dict)) (name : String),
      resolve_page_link reg (.inl (.pstr (String.mk ('$' :: name.toList)))) = regGet reg name)
    ∧ (∀ (reg : List (String × List Dict)) (name : String),
      reg.find? (fun p => p.1 = name) = none →
      resolve_page_link reg (.inl (.pstr (String.mk ('$' :: name.toList)))) = [])
    ∧ (∀ (reg : List (String × List Dict)) (s : String),
      strFirstIs s '$' = false →
      resolve_page_link reg (.inl (.pstr s)) =
        [[("url", .vstr s), ("metadata", .vdict [])]])
    ∧ (∀ (reg : List (String × List Dict)) (specs : List PageLinkSpec),
      resolve_page_link reg (.inr specs) =
        specs.flatMap (fun u => resolveLinkLoop reg [u]))
    ∧ (resolve_page_link [("leads", [[("url", Value.vstr "a")], [("url", Value.vstr "b")]])]
        (.inl (.pstr "$leads")) = [[("url", Value.vstr "a")], [("url", Value.vstr "b")]]
      ∧ resolve_page_link [("leads", [[("url", Value.vstr "a")], [("url", Value.vstr "b")]])]
        (.inl (.pstr "$missing")) = []) := by
  have hone : ∀ (reg : List (String × List Dict)) (u : PageLinkSpec) (us : List PageLinkSpec),
      resolveLinkLoop reg (u :: us) = resolveLinkLoop reg [u] ++ resolveLinkLoop reg us := by
    intro reg u us
    cases u with
    | pobj d => simp [resolveLinkLoop]
    | pstr s =>
      by_cases hs : strFirstIs s '$' = true
      · simp [resolveLinkLoop, hs]
      · simp at hs
        simp [resolveLinkLoop, hs]
  refine ⟨?_, ?_, ?_, ?_, rfl, rfl⟩
  · intro reg name
    show regGet reg (strRest (String.mk ('$' :: name.toList))) ++ [] = regGet reg name
    simp [strRest]
  · intro reg name h
    show regGet reg (strRest (String.mk ('$' :: name.toList))) ++ [] = []
    simp [strRest, regGet, h]
  · intro reg s h
    simp [resolve_page_link, resolveLinkLoop, h]
  · intro reg specs
    induction specs with
    | nil => rfl
    | cons u us ih =>
      simp only [resolve_page_link] at ih ⊢
      rw [hone reg u us, ih, List.flatMap_cons]

/-- Witness for C8 at a concrete plain url string. -/
theorem c8_resolve_page_link_witness :
    resolve_page_link [] (.inl (.pstr "u")) =
      [[("url", Value.vstr "u"), ("metadata", Value.vdict [])]] :=
  c8_resolve_page_link.2.2.1 [] "u" (by decide)

/-- C1 counterexample: a run body that accumulates a nonempty partial result
tree and then raises makes start return the error paired with Python None:
the accumulated partial tree survives in the instance state but is not the
second component of the returned pair, refuting the claim that the error is
accompanied by the partial result tree in the return value. -/
theorem c1_counterexample :
    (start c1CrashRun ⟨[], []⟩).1 = (some "boom", none)
    ∧ (start c1CrashRun ⟨[], []⟩).2.data = [("k", Value.vstr "v")]
    ∧ (start c1CrashRun ⟨[], []⟩).1.2 ≠ some ((start c1CrashRun ⟨[], []⟩).2.data) := by
  refine ⟨rfl, rfl, fun h => Option.noConfusion h⟩

/-- C1 (amended): when the run body raises, start returns the error paired
with None in place of the result tree; the state the body accumulated up to
the failure, partial result tree and link registry included, is retained in
the instance (and stays retrievable through the data and links accessors)
rather than being part of the returned pair. -/
theorem c1_start_amended (run : RState → RState × Option String) (s0 s1 : RState)
    (e : String) (h : run s0 = (s1, some e)) :
    start run s0 = ((some e, none), s1) := by
  simp [start, h]

/-- Witness for the amended C1 at the concrete crashing run body. -/
theorem c1_start_amended_witness :
    start c1CrashRun ⟨[], []⟩ = ((some "boom", none), ⟨[("k", Value.vstr "v")], []⟩) :=
  c1_start_amended c1CrashRun ⟨[], []⟩ ⟨[("k", Value.vstr "v")], []⟩ "boom" rfl

/-- C5: exhibition of the variable-scope sharing defect.  Collecting one link
config whose url evaluated to a two-element list stores two registry entries
that reference the same metadata dict object; the two page sessions later
opened from those visit targets bind their variable scopes to that one
object, so the scopes coincide, a write through the first session is read
back through the second session, and the registry entry itself still
references the same polluted object — contradicting the claimed exclusive
ownership of each session's variable scope. -/
theorem c5_shared_scope_bug :
    c5SessA.2.varsAddr = c5SessB.2.varsAddr
    ∧ getVar c5HeapW c5SessB.2 "secret" = some (.vstr "leak")
    ∧ c5LinkB.metadata = some c5SessA.2.varsAddr
    ∧ getVar c5HeapW c5SessA.2 "_url" = some (.vstr "b") := by
  refine ⟨rfl, rfl, rfl, rfl⟩

end Rake
